import Mathlib

/-!
Verification of the snapTo Upload Dispatch & Credential Subsystem.

This file gives a shallow embedding, in Lean 4, of the parts of the
snapTo repository that the specification talks about:

* the multi-destination dispatch loop of
  `crates/snapto-cli/src/commands/upload.rs` (`execute`),
* the SQLite-backed history store of
  `crates/snapto-core/src/history.rs` (`HistoryManager`),
* the encrypted-file credential vault of
  `crates/snapto-core/src/keychain.rs` (`KeychainManager`),
* the SSH/SFTP authentication sequences of
  `crates/snapto-core/src/upload/sftp.rs` and `upload/ssh.rs`.

External effects are made explicit: SQLite rows become a Lean list of
records, file deletions and row deletions become an explicit event
trace, network uploads and remote authentication attempts become
oracles (environments) recording which destination or method was
tried, and AES-256-GCM is modelled symbolically (a ciphertext is the
triple of derived key, nonce and plaintext; decryption succeeds only
with the matching key and nonce).
-/

namespace Snapto

/-! ## Core data model (config.rs, upload/mod.rs, history.rs) -/

/-- `UploadResult` from `upload/mod.rs`: value object produced by a
successful upload. -/
structure UploadResult where
  remote_path : String
  url : Option String
  size : Nat
  duration_ms : Nat
deriving DecidableEq, Repr

/-- `UploadConfig` from `config.rs`: per-destination configuration. -/
structure UploadConfig where
  uploader_type : String
  enabled : Bool
  host : Option String
  port : Option Nat
  username : Option String
  remote_path : Option String
  base_url : Option String
  local_path : Option String
  use_key_auth : Option Bool
  key_path : Option String
  timeout : Option Nat
deriving DecidableEq, Repr

/-- A row of the `history` SQLite table (`history.rs`).  `created_at`
is the RFC3339 text exactly as stored in the `created_at TEXT`
column. -/
structure HistoryRow where
  id : Nat
  filename : String
  remote_path : String
  url : Option String
  destination : String
  size : Nat
  created_at : String
  thumbnail_path : Option String
  local_copy_path : Option String
deriving DecidableEq, Repr

/-- `HistoryEntry` as returned to callers: `created_at` has been
parsed from the RFC3339 text into a timestamp (we model `DateTime` as
an integer). -/
structure HistoryEntry where
  id : Nat
  filename : String
  remote_path : String
  url : Option String
  destination : String
  size : Nat
  created_at : Int
  thumbnail_path : Option String
  local_copy_path : Option String
deriving DecidableEq, Repr

/-! ## Dispatch engine (commands/upload.rs, `execute`) -/

/-- Dispatch errors produced by the upload loop in
`commands/upload.rs`.  The source carries them as `anyhow` errors; we
keep the distinct cases.  Note there is no destination-disabled error
variant: the source has none. -/
inductive DispatchErr
  | notFound (name : String)
  | unknownType (t : String)
  | validateFailed (name : String) (e : String)
  | uploadFailed (name : String) (e : String)
  | noSuccessfulUploads
deriving DecidableEq, Repr

/-- Observable side effects of the dispatch loop: construction of an
uploader for a destination (`create_uploader`) and invocation of
`upload` on it.  A destination whose uploader is never constructed
has no network resource contacted. -/
inductive DispatchEv
  | constructed (name : String)
  | uploaded (name : String)
deriving DecidableEq, Repr

/-- Environment for a dispatch run: the outcome of `validate()` and of
`upload()` for each destination name.  These are the effectful calls
the loop makes on the constructed uploader. -/
structure DispatchEnv where
  validateRes : String → Except String Unit
  uploadRes : String → Except String UploadResult

/-- Lookup of a destination in `config.uploads` (a map name →
`UploadConfig`). -/
def lookupCfg : List (String × UploadConfig) → String → Option UploadConfig
  | [], _ => none
  | (k, v) :: rest, name => if k = name then some v else lookupCfg rest name

/-- The uploader kinds `create_uploader` accepts
(`commands/upload.rs`): any other type string is an error. -/
def knownUploaderType (t : String) : Bool :=
  t = "sftp" || t = "ssh" || t = "local"

/-- The destination loop of `execute` (`commands/upload.rs` lines
96-146), over the enumerated destination list.  State: the first
successful result so far (`primary_result`) and the event trace.
An upload failure at index 0 is fatal; at any later index the loop
continues.  Disabled destinations are skipped. -/
def dispatchGo (cfg : List (String × UploadConfig)) (env : DispatchEnv) :
    List (Nat × String) → Option UploadResult → List DispatchEv →
    Except DispatchErr (Option UploadResult) × List DispatchEv
  | [], acc, tr => (.ok acc, tr)
  | (i, name) :: rest, acc, tr =>
    match lookupCfg cfg name with
    | none => (.error (.notFound name), tr)
    | some d =>
      if d.enabled = false then
        dispatchGo cfg env rest acc tr
      else if knownUploaderType d.uploader_type = false then
        (.error (.unknownType d.uploader_type), tr)
      else
        let tr1 := tr ++ [.constructed name]
        match env.validateRes name with
        | .error e => (.error (.validateFailed name e), tr1)
        | .ok _ =>
          let tr2 := tr1 ++ [.uploaded name]
          match env.uploadRes name with
          | .ok r =>
            dispatchGo cfg env rest (if acc.isNone then some r else acc) tr2
          | .error e =>
            if i = 0 then (.error (.uploadFailed name e), tr2)
            else dispatchGo cfg env rest acc tr2

/-- Full dispatch over an ordered destination name list: run the loop,
then require at least one successful result (`primary_result
.ok_or_else(|| anyhow!("No successful uploads"))`). -/
def dispatch (cfg : List (String × UploadConfig)) (env : DispatchEnv)
    (names : List String) : Except DispatchErr UploadResult × List DispatchEv :=
  match dispatchGo cfg env names.enum none [] with
  | (.error e, tr) => (.error e, tr)
  | (.ok none, tr) => (.error .noSuccessfulUploads, tr)
  | (.ok (some r), tr) => (.ok r, tr)

/-- Building `uploader_names` (`commands/upload.rs` lines 69-80):
primary first; additional destinations appended in order when no
explicit destination was requested, skipping the primary and
duplicates. -/
def addAdditional (primary : String) : List String → List String → List String
  | acc, [] => acc
  | acc, a :: rest =>
    if a ≠ primary ∧ a ∉ acc then addAdditional primary (acc ++ [a]) rest
    else addAdditional primary acc rest

def buildUploaderNames (primary : String) (hasSpecificDest : Bool)
    (additional : List String) : List String :=
  if hasSpecificDest then [primary]
  else addAdditional primary [primary] additional

/-- The history row written after a successful dispatch
(`commands/upload.rs` lines 190-208): its `destination` field is
always `primary_name`, and the rest is taken from the first successful
result. -/
def historyEntryOf (primary_name final_filename : String) (r : UploadResult)
    (now : String) : HistoryRow :=
  { id := 0
    filename := final_filename
    remote_path := r.remote_path
    url := r.url
    destination := primary_name
    size := r.size
    created_at := now
    thumbnail_path := none
    local_copy_path := none }

/-! ## History store (history.rs, `HistoryManager`) -/

/-- `HistoryMode` from `config.rs`. -/
inductive HistoryMode
  | metadata
  | thumbnails
  | full
deriving DecidableEq, Repr

/-- `HistoryConfig` from `config.rs` (the fields `HistoryManager`
reads; the storage path only fixes where files land and is folded into
the generated file names). -/
structure HistoryConfig where
  enabled : Bool
  mode : HistoryMode
  retention_days : Nat
  max_entries : Nat
deriving DecidableEq, Repr

/-- State of the history store: the rows of the `history` table and
the next AUTOINCREMENT row id. -/
structure HistState where
  rows : List HistoryRow
  nextId : Nat
deriving DecidableEq, Repr

/-- Side effects of `delete`/`cleanup`: best-effort removal of a file
from disk (`fs::remove_file`) and deletion of a row from the table. -/
inductive HistEv
  | rmFile (p : String)
  | delRow (id : Nat)
deriving DecidableEq, Repr

/-- Byte-wise (code-point lexicographic) string comparison: the
ordering SQLite's default BINARY collation applies to the
`created_at TEXT` column in `ORDER BY created_at DESC`. -/
def strLeB : List Char → List Char → Bool
  | [], _ => true
  | _ :: _, [] => false
  | a :: as, b :: bs => if a = b then strLeB as bs else decide (a < b)

/-- `a` sorts no later than `b` under `ORDER BY created_at DESC`. -/
def rowNewer (a b : HistoryRow) : Prop :=
  strLeB b.created_at.data a.created_at.data = true

instance : DecidableRel rowNewer :=
  fun _ _ => inferInstanceAs (Decidable (_ = true))

/-- `ORDER BY created_at DESC` of the history table. -/
def sortNewestFirst (rows : List HistoryRow) : List HistoryRow :=
  List.insertionSort rowNewer rows

/-- Files on disk associated with a row (thumbnail and local copy),
in the order the source deletes them. -/
def rowFiles (r : HistoryRow) : List String :=
  r.thumbnail_path.toList ++ r.local_copy_path.toList

/-- The effect trace of the eviction loop in `cleanup`
(`history.rs` lines 253-264): for each selected row, first remove its
files, then delete the row. -/
def evictionEvents : List HistoryRow → List HistEv
  | [] => []
  | r :: rest => (rowFiles r).map HistEv.rmFile ++ [HistEv.delRow r.id] ++ evictionEvents rest

/-- Whether a row survives the eviction (`DELETE FROM history WHERE
id = ?1` is issued for every id in the eviction set). -/
def keepRow (delIds : List Nat) (r : HistoryRow) : Bool :=
  !(decide (r.id ∈ delIds))

/-- `HistoryManager::cleanup` (`history.rs` lines 232-267): when
`max_entries` is 0, do nothing; otherwise select every row beyond the
newest `max_entries` (ordered by `created_at DESC`, `LIMIT -1 OFFSET
max_entries`), and for each delete its files and then the row.
Returns the removal count, the new state, and the event trace. -/
def cleanup (cfg : HistoryConfig) (st : HistState) :
    Nat × HistState × List HistEv :=
  if cfg.max_entries = 0 then (0, st, [])
  else
    let toDel := (sortNewestFirst st.rows).drop cfg.max_entries
    let delIds := toDel.map HistoryRow.id
    (toDel.length,
     { st with rows := st.rows.filter (keepRow delIds) },
     evictionEvents toDel)

/-- `sanitize_filename` (`history.rs` lines 322-330). -/
def sanitize_filename (filename : String) : String :=
  String.mk (filename.data.map (fun c =>
    if c = '/' ∨ c = '\\' ∨ c = ':' ∨ c = '*' ∨ c = '?' ∨ c = '"' ∨
       c = '<' ∨ c = '>' ∨ c = '|' then '_' else c))

/-- Path of the thumbnail `save_thumbnail` writes (relative to the
history storage directory). -/
def thumbPathFor (filename : String) : String :=
  "thumbnails/thumb_" ++ sanitize_filename filename ++ ".png"

/-- Path of the verbatim copy `save_full_image` writes. -/
def imagePathFor (filename : String) : String :=
  "images/" ++ filename

/-- Raw clipboard image bytes, abstracted to whether
`image::load_from_memory` can decode them (the only property
`generate_thumbnail` depends on at this level). -/
structure ImageData where
  decodable : Bool
deriving DecidableEq, Repr

/-- The thumbnail/local-copy persistence step of `HistoryManager::add`
(`history.rs` lines 91-108): which files get written for a given mode
and image, failing when the image does not decode. -/
def addFiles (mode : HistoryMode) (image_data : Option ImageData)
    (filename : String) : Except String (Option String × Option String) :=
  match image_data, mode with
  | some d, .thumbnails =>
    if d.decodable then .ok (some (thumbPathFor filename), none)
    else .error "Failed to load image"
  | some d, .full =>
    if d.decodable then
      .ok (some (thumbPathFor filename), some (imagePathFor filename))
    else .error "Failed to load image"
  | _, _ => .ok (none, none)

/-- `HistoryManager::add` (`history.rs` lines 86-132): no-op returning
id 0 when history is disabled; otherwise persist thumbnail/full copy
according to the mode (failing if the image does not decode), insert
the row with the store-assigned id, then run `cleanup`
unconditionally.  Returns the new row id, post-state and the eviction
event trace. -/
def add (cfg : HistoryConfig) (st : HistState) (entry : HistoryRow)
    (image_data : Option ImageData) :
    Except String (Nat × HistState × List HistEv) :=
  if cfg.enabled = false then .ok (0, st, [])
  else
    match addFiles cfg.mode image_data entry.filename with
    | .error e => .error e
    | .ok (thumb, localCopy) =>
      let newRow := { entry with
        id := st.nextId
        thumbnail_path := thumb
        local_copy_path := localCopy }
      let st1 : HistState := { rows := st.rows ++ [newRow], nextId := st.nextId + 1 }
      .ok (st.nextId, (cleanup cfg st1).2.1, (cleanup cfg st1).2.2)

/-- Row-to-entry conversion shared by `get_recent`, `search` and
`get_by_id` (`history.rs` lines 143-159 etc.): the `created_at` text
is parsed with `DateTime::parse_from_rfc3339` and, on failure,
silently replaced by `Utc::now()` via `unwrap_or_else`.  The RFC3339
parser is an external library; it is passed in as `parse`, and `now`
stands for `Utc::now()`. -/
def rowToEntry (parse : String → Option Int) (now : Int) (r : HistoryRow) :
    HistoryEntry :=
  { id := r.id
    filename := r.filename
    remote_path := r.remote_path
    url := r.url
    destination := r.destination
    size := r.size
    created_at := (parse r.created_at).getD now
    thumbnail_path := r.thumbnail_path
    local_copy_path := r.local_copy_path }

/-- `HistoryManager::get_recent` (`history.rs` lines 135-164):
`ORDER BY created_at DESC LIMIT ?1`, each row converted by the mapper
above.  The row mapper is total, so the whole query is `Ok`. -/
def get_recent (parse : String → Option Int) (now : Int) (st : HistState)
    (limit : Nat) : Except String (List HistoryEntry) :=
  .ok (((sortNewestFirst st.rows).take limit).map (rowToEntry parse now))

/-! ### SQLite LIKE (the operator used by `search`)

SQLite's default `LIKE` treats `%` as any sequence, `_` as any single
character, and compares ASCII letters case-insensitively (default
`case_sensitive_like` off; the source sets no pragma).  `likeFuel` is
the matcher with explicit fuel (each step consumes one unit; pattern
length + string length + 1 always suffices). -/

/-- ASCII lower-casing, as SQLite's default LIKE applies it. -/
def asciiLower (c : Char) : Char :=
  if 'A' ≤ c ∧ c ≤ 'Z' then Char.ofNat (c.toNat + 32) else c

/-- Case-insensitive (ASCII) character comparison. -/
def charEqCI (a b : Char) : Bool := asciiLower a = asciiLower b

def likeFuel : Nat → List Char → List Char → Bool
  | 0, _, _ => false
  | _ + 1, [], s => s.isEmpty
  | n + 1, p :: ps, s =>
    if p = '%' then
      likeFuel n ps s ||
        (match s with
         | [] => false
         | _ :: s2 => likeFuel n (p :: ps) s2)
    else
      match s with
      | [] => false
      | c :: s2 => (if p = '_' then true else charEqCI p c) && likeFuel n ps s2

/-- `s LIKE pat` under SQLite's default collation. -/
def likeMatch (pat s : List Char) : Bool :=
  likeFuel (pat.length + s.length + 1) pat s

/-- The predicate of `search`'s `WHERE filename LIKE ?1 OR url LIKE
?1` with the pattern `format!("%{0}%", query)`; a NULL url never
matches. -/
def rowMatchesSearch (q : String) (r : HistoryRow) : Bool :=
  likeMatch ('%' :: (q.data ++ ['%'])) r.filename.data ||
    (match r.url with
     | some u => likeMatch ('%' :: (q.data ++ ['%'])) u.data
     | none => false)

/-- `HistoryManager::search` (`history.rs` lines 167-199): filter by
the LIKE pattern, `ORDER BY created_at DESC LIMIT 100`. -/
def search (parse : String → Option Int) (now : Int) (st : HistState)
    (q : String) : Except String (List HistoryEntry) :=
  .ok ((((sortNewestFirst st.rows).filter (rowMatchesSearch q)).take 100).map
    (rowToEntry parse now))

/-- `HistoryManager::get_by_id` (`history.rs` lines 344-375):
`WHERE id = ?1`, `None` when no row matches. -/
def get_by_id (parse : String → Option Int) (now : Int) (st : HistState)
    (id : Nat) : Except String (Option HistoryEntry) :=
  .ok ((st.rows.find? (fun r => decide (r.id = id))).map (rowToEntry parse now))

/-! Spec-side search semantics, for comparison with the embedded
`search`.  `prefCS`/`subCS` give case-sensitive substring matching (the
spec's words for C7); `prefCI`/`subCI` give case-insensitive (ASCII)
substring matching (what SQLite LIKE actually computes for
wildcard-free queries). -/

def prefCS : List Char → List Char → Bool
  | [], _ => true
  | _ :: _, [] => false
  | a :: as, b :: bs => a = b && prefCS as bs

def subCS (needle : List Char) : List Char → Bool
  | [] => prefCS needle []
  | c :: cs => prefCS needle (c :: cs) || subCS needle cs

def prefCI : List Char → List Char → Bool
  | [], _ => true
  | _ :: _, [] => false
  | a :: as, b :: bs => charEqCI a b && prefCI as bs

def subCI (needle : List Char) : List Char → Bool
  | [] => prefCI needle []
  | c :: cs => prefCI needle (c :: cs) || subCI needle cs

/-- The search the specification describes for C7: case-sensitive
substring match on filename or URL, newest first, capped at 100. -/
def searchSpecCS (parse : String → Option Int) (now : Int) (st : HistState)
    (q : String) : Except String (List HistoryEntry) :=
  .ok ((((sortNewestFirst st.rows).filter (fun r =>
      subCS q.data r.filename.data ||
        (match r.url with
         | some u => subCS q.data u.data
         | none => false))).take 100).map (rowToEntry parse now))

/-- Case-insensitive (ASCII) substring search: the amended semantics
of `search` for queries free of LIKE wildcards. -/
def searchSpecCI (parse : String → Option Int) (now : Int) (st : HistState)
    (q : String) : Except String (List HistoryEntry) :=
  .ok ((((sortNewestFirst st.rows).filter (fun r =>
      subCI q.data r.filename.data ||
        (match r.url with
         | some u => subCI q.data u.data
         | none => false))).take 100).map (rowToEntry parse now))

/-- `a` occurs strictly before `b` in the trace `tr`. -/
def evBefore (tr : List HistEv) (a b : HistEv) : Prop :=
  ∃ t1 t2 t3, tr = t1 ++ a :: (t2 ++ b :: t3)

/-! ## Credential vault, encrypted-file backend (keychain.rs)

AES-256-GCM with an Argon2-derived key is modelled symbolically: a
derived key is the (master password, salt) pair, and a ciphertext is
the derived key, the nonce and the plaintext bundled together;
decryption yields the plaintext exactly when key and nonce match, and
fails otherwise (authenticated encryption rejects any other
ciphertext).  The plaintext `HashMap<String, String>` and its JSON
serialization are modelled as an association list. -/

/-- The Argon2-derived AES key (`derive_key`): determined by the
master password and the salt. -/
structure DerivedKey where
  password : String
  salt : String
deriving DecidableEq, Repr

/-- Symbolic AES-256-GCM ciphertext. -/
structure Ciphertext where
  key : DerivedKey
  nonce : List Nat
  plain : List (String × String)
deriving DecidableEq, Repr

/-- `KeychainManager::encrypt` (symbolic). -/
def aesEncrypt (k : DerivedKey) (nonce : List Nat)
    (plain : List (String × String)) : Ciphertext :=
  ⟨k, nonce, plain⟩

/-- `KeychainManager::decrypt` (symbolic): succeeds only with the
matching derived key and nonce. -/
def aesDecrypt (k : DerivedKey) (nonce : List Nat) (ct : Ciphertext) :
    Option (List (String × String)) :=
  if ct.key = k ∧ ct.nonce = nonce then some ct.plain else none

/-- The `EncryptedStore` JSON envelope (`keychain.rs` lines 27-35). -/
structure EncryptedStore where
  salt : String
  nonce : List Nat
  data : Ciphertext
deriving DecidableEq, Repr

/-- The on-disk state of `credentials.enc`: absent, present but not
parseable as an `EncryptedStore`, or a parsed store. -/
inductive VaultFile
  | absent
  | garbage (raw : String)
  | stored (s : EncryptedStore)
deriving Repr

/-- Vault errors (`SnaptoError::Keychain` / `SnaptoError::Encryption`). -/
inductive VaultErr
  | keychain (msg : String)
  | encryption (msg : String)
deriving DecidableEq, Repr

/-- `get_master_password` (`keychain.rs` lines 323-332): the
`SNAPTO_MASTER_PASSWORD` environment variable if set, else the fixed
default. -/
def get_master_password (env : Option String) : String :=
  env.getD "snapto-default-password"

/-- `derive_key` (symbolic). -/
def derive_key (password salt : String) : DerivedKey :=
  ⟨password, salt⟩

/-- `load_encrypted_store` (`keychain.rs` lines 191-220): an absent
file is an empty store; a present file must parse and decrypt with the
configured master secret, otherwise a hard error is returned. -/
def load_encrypted_store (env : Option String) (file : VaultFile) :
    Except VaultErr (List (String × String)) :=
  match file with
  | .absent => .ok []
  | .garbage _ => .error (.keychain "Failed to parse encrypted store")
  | .stored s =>
    match aesDecrypt (derive_key (get_master_password env) s.salt) s.nonce s.data with
    | none => .error (.encryption "Decryption failed")
    | some m => .ok m

/-- `save_encrypted_store` (`keychain.rs` lines 223-263): re-serialize
the whole mapping and encrypt it under a freshly generated salt and
nonce (passed in here, as the model of `OsRng`). -/
def save_encrypted_store (env : Option String) (salt : String)
    (nonce : List Nat) (m : List (String × String)) : VaultFile :=
  .stored ⟨salt, nonce, aesEncrypt (derive_key (get_master_password env) salt) nonce m⟩

/-- `HashMap::remove` on the modelled mapping. -/
def mapRemove (k : String) (m : List (String × String)) : List (String × String) :=
  m.filter (fun p => !(decide (p.1 = k)))

/-- `HashMap::insert` on the modelled mapping (overwrites). -/
def mapInsert (k v : String) (m : List (String × String)) : List (String × String) :=
  (k, v) :: mapRemove k m

/-- `HashMap::get` on the modelled mapping. -/
def mapGet (k : String) (m : List (String × String)) : Option String :=
  (m.find? (fun p => decide (p.1 = k))).map Prod.snd

/-- `set_encrypted_file` (`keychain.rs` lines 171-176): load, insert,
save under fresh salt/nonce. -/
def set_encrypted_file (env : Option String) (file : VaultFile)
    (k v : String) (salt : String) (nonce : List Nat) :
    Except VaultErr VaultFile :=
  match load_encrypted_store env file with
  | .error e => .error e
  | .ok m => .ok (save_encrypted_store env salt nonce (mapInsert k v m))

/-- `get_encrypted_file` (`keychain.rs` lines 178-181). -/
def get_encrypted_file (env : Option String) (file : VaultFile)
    (k : String) : Except VaultErr (Option String) :=
  match load_encrypted_store env file with
  | .error e => .error e
  | .ok m => .ok (mapGet k m)

/-- `delete_encrypted_file` (`keychain.rs` lines 183-188). -/
def delete_encrypted_file (env : Option String) (file : VaultFile)
    (k : String) (salt : String) (nonce : List Nat) :
    Except VaultErr VaultFile :=
  match load_encrypted_store env file with
  | .error e => .error e
  | .ok m => .ok (save_encrypted_store env salt nonce (mapRemove k m))

/-! ## SSH/SFTP authentication sequences (upload/sftp.rs, upload/ssh.rs)

The remote side is an oracle saying whether each authentication method
would succeed.  Each embedded sequence returns the ordered list of
methods actually attempted together with the outcome. -/

/-- Whether each authentication method would succeed against the
server (outcomes of `userauth_pubkey_file`, `userauth_password`,
`userauth_agent`, each including the subsequent
`session.authenticated()` check). -/
structure AuthEnv where
  keyAuthOk : Bool
  passwordAuthOk : Bool
  agentAuthOk : Bool
deriving DecidableEq, Repr

inductive AuthMethod
  | publicKey
  | password
  | agent
deriving DecidableEq, Repr

/-- Outcome of an authentication sequence.  `configError` corresponds
to `ConfigError::Invalid`, `authError` to
`SnaptoError::SshAuthentication` (the kind, distinct from connection
errors, that triggers interactive recovery). -/
inductive AuthOutcome
  | ok
  | configError (msg : String)
  | authError (msg : String)
deriving DecidableEq, Repr

/-- The shared `authenticate_password` helper (`sftp.rs` lines
132-151, `ssh.rs` lines 153-172): requires a stored password; no other
method is tried. -/
def authenticate_password (pw : Option String) (env : AuthEnv) :
    List AuthMethod × AuthOutcome :=
  match pw with
  | none => ([], .authError "password required")
  | some _ =>
    ([.password], if env.passwordAuthOk then .ok else .authError "password auth failed")

/-- `SftpUploader::authenticate` (`sftp.rs` lines 84-129): key auth
when configured (key path required), falling back to password auth
only when a password is present; otherwise password auth, which
requires a password.  The agent is never consulted. -/
def sftp_authenticate (c : UploadConfig) (pw : Option String) (env : AuthEnv) :
    List AuthMethod × AuthOutcome :=
  match c.username with
  | none => ([], .configError "username not configured")
  | some _ =>
    if c.use_key_auth.getD false then
      match c.key_path with
      | none => ([], .configError "key path not configured")
      | some _ =>
        if env.keyAuthOk then ([.publicKey], .ok)
        else if pw.isSome then
          let (ms, r) := authenticate_password pw env
          (.publicKey :: ms, r)
        else ([.publicKey], .authError "key auth failed")
    else
      authenticate_password pw env

/-- The authentication portion of `SshUploader::connect` (`ssh.rs`
lines 91-146): same key-auth branch as SFTP; without key auth, a
present password is used, and only with no password at all is the
ssh-agent tried. -/
def ssh_authenticate (c : UploadConfig) (pw : Option String) (env : AuthEnv) :
    List AuthMethod × AuthOutcome :=
  match c.username with
  | none => ([], .configError "username not configured")
  | some _ =>
    if c.use_key_auth.getD false then
      match c.key_path with
      | none => ([], .configError "key path not configured")
      | some _ =>
        if env.keyAuthOk then ([.publicKey], .ok)
        else if pw.isSome then
          let (ms, r) := authenticate_password pw env
          (.publicKey :: ms, r)
        else ([.publicKey], .authError "key auth failed")
    else
      match pw with
      | some _ =>
        ([.password], if env.passwordAuthOk then .ok else .authError "password auth failed")
      | none =>
        ([.agent], if env.agentAuthOk then .ok else .authError "agent auth failed")

/-- The authentication precedence the specification claims for both
variants (claim C6, spec section 4.1 step 2): public key when
configured; if key auth fails or is not configured and a password is
available, password; if no password is available, agent as last
resort; an authentication error only when all applicable attempts
fail. -/
def claimedAuthSequence (c : UploadConfig) (pw : Option String)
    (env : AuthEnv) : List AuthMethod × AuthOutcome :=
  if c.use_key_auth.getD false then
    if env.keyAuthOk then ([.publicKey], .ok)
    else if pw.isSome then
      ([.publicKey, .password],
       if env.passwordAuthOk then .ok else .authError "all attempts failed")
    else
      ([.publicKey, .agent],
       if env.agentAuthOk then .ok else .authError "all attempts failed")
  else if pw.isSome then
    ([.password], if env.passwordAuthOk then .ok else .authError "all attempts failed")
  else
    ([.agent], if env.agentAuthOk then .ok else .authError "all attempts failed")

/-! ## Concrete instances used by counterexamples and witnesses -/

/-- The destination name an event is about. -/
def evName : DispatchEv → String
  | .constructed n => n
  | .uploaded n => n

/-- A disabled local destination named "a". -/
def exampleCfgA : UploadConfig :=
  { uploader_type := "local", enabled := false, host := none, port := none
    username := none, remote_path := none, base_url := none
    local_path := some "/tmp/a", use_key_auth := none, key_path := none
    timeout := none }

/-- An enabled local destination named "b". -/
def exampleCfgB : UploadConfig :=
  { uploader_type := "local", enabled := true, host := none, port := none
    username := none, remote_path := none, base_url := some "https://b.example"
    local_path := some "/tmp/b", use_key_auth := none, key_path := none
    timeout := none }

/-- Destination map with a disabled "a" and an enabled "b". -/
def exampleUploads : List (String × UploadConfig) :=
  [("a", exampleCfgA), ("b", exampleCfgB)]

/-- The result destination "b" produces. -/
def exampleResultB : UploadResult :=
  { remote_path := "/tmp/b/x.png", url := some "https://b.example/x.png"
    size := 3, duration_ms := 1 }

/-- Environment where every validation passes and only "b" uploads
successfully. -/
def exampleEnv : DispatchEnv :=
  { validateRes := fun _ => .ok ()
    uploadRes := fun n => if n = "b" then .ok exampleResultB else .error "fail" }

/-- "a" enabled as well, for the primary-failure scenario. -/
def exampleCfgA2 : UploadConfig :=
  { exampleCfgA with enabled := true }

/-- Destination map with both "a" and "b" enabled. -/
def exampleUploads2 : List (String × UploadConfig) :=
  [("a", exampleCfgA2), ("b", exampleCfgB)]

/-- Environment where "a" fails to upload and "b" succeeds. -/
def exampleEnv2 : DispatchEnv :=
  { validateRes := fun _ => .ok ()
    uploadRes := fun n => if n = "b" then .ok exampleResultB else .error "boom" }

/-- Map with every destination disabled. -/
def exampleUploadsAllDisabled : List (String × UploadConfig) :=
  [("a", exampleCfgA)]

/-- A history row whose filename has an upper-case letter. -/
def rowShot : HistoryRow :=
  { id := 1, filename := "Shot.png", remote_path := "/srv/Shot.png"
    url := none, destination := "a", size := 3
    created_at := "2024-01-01T00:00:00Z"
    thumbnail_path := none, local_copy_path := none }

/-- Store holding only `rowShot`. -/
def stShot : HistState := { rows := [rowShot], nextId := 2 }

/-- An RFC3339 parser that never succeeds (one admissible instance of
the external parser; claim C10 holds for every parser). -/
def parseNone : String → Option Int := fun _ => none

/-- Older row with an on-disk thumbnail. -/
def rowOld : HistoryRow :=
  { id := 1, filename := "old.png", remote_path := "/srv/old.png"
    url := none, destination := "a", size := 3, created_at := "a"
    thumbnail_path := some "thumbnails/thumb_old.png", local_copy_path := none }

/-- Newer row. -/
def rowNew : HistoryRow :=
  { id := 2, filename := "new.png", remote_path := "/srv/new.png"
    url := none, destination := "a", size := 3, created_at := "b"
    thumbnail_path := none, local_copy_path := none }

/-- Store holding `rowOld` then `rowNew`. -/
def stTwo : HistState := { rows := [rowOld, rowNew], nextId := 3 }

/-- History configuration with a retention cap of one row. -/
def cfgMax1 : HistoryConfig :=
  { enabled := true, mode := .metadata, retention_days := 30, max_entries := 1 }

/-- An encrypted store whose ciphertext was produced under a different
master password, so it does not decrypt with the configured secret. -/
def badStore : EncryptedStore :=
  { salt := "salt1", nonce := [0]
    data := ⟨⟨"wrong-password", "salt1"⟩, [0], []⟩ }

/-- SFTP destination with key auth off; used by the C6
counterexample. -/
def c6cfg : UploadConfig :=
  { uploader_type := "sftp", enabled := true, host := some "h"
    port := some 22, username := some "u", remote_path := some "/up"
    base_url := none, local_path := none, use_key_auth := none
    key_path := none, timeout := none }

/-- A server where every authentication method would succeed. -/
def c6env : AuthEnv :=
  { keyAuthOk := true, passwordAuthOk := true, agentAuthOk := true }

/-! ## Theorems: credential vault (claims C3, C5) -/

theorem mapGet_insert_self (k v : String) (m : List (String × String)) :
    mapGet k (mapInsert k v m) = some v := by
  simp [mapGet, mapInsert, List.find?_cons]

theorem mapGet_remove_self (k : String) (m : List (String × String)) :
    mapGet k (mapRemove k m) = none := by
  have h : (mapRemove k m).find? (fun p => decide (p.1 = k)) = none := by
    rw [List.find?_eq_none]
    intro p hp
    have := (List.mem_filter.mp hp).2
    simpa using this
  simp [mapGet, h]

theorem load_after_save (env : Option String) (salt : String) (nonce : List Nat)
    (m : List (String × String)) :
    load_encrypted_store env (save_encrypted_store env salt nonce m) = .ok m := by
  simp [load_encrypted_store, save_encrypted_store, aesEncrypt, aesDecrypt]

/-- C3: for the encrypted-file vault, if the stored credentials file
exists but its ciphertext does not decrypt with the configured master
secret, then for every key `get` returns a hard error; the store is
never silently treated as empty or reset. -/
theorem corrupt_vault_hard_error (env : Option String) (s : EncryptedStore)
    (hdec : aesDecrypt (derive_key (get_master_password env) s.salt) s.nonce s.data = none) :
    ∀ k : String,
      get_encrypted_file env (.stored s) k = .error (.encryption "Decryption failed") := by
  intro k
  simp [get_encrypted_file, load_encrypted_store, hdec]

theorem corrupt_vault_hard_error_witness :
    aesDecrypt (derive_key (get_master_password none) badStore.salt)
        badStore.nonce badStore.data = none ∧
    get_encrypted_file none (.stored badStore) "k" =
      .error (.encryption "Decryption failed") :=
  ⟨by decide, corrupt_vault_hard_error none badStore (by decide) "k"⟩

/-- C5: for the encrypted-file vault, `set(k, v)` followed by `get(k)`
returns exactly `v`, and after `delete(k)`, `get(k)` returns absent
(`None`).  The salts and nonces are the fresh values generated on each
save. -/
theorem vault_roundtrip (env : Option String) (file : VaultFile)
    (k v salt : String) (nonce : List Nat) (salt2 : String) (nonce2 : List Nat)
    (m : List (String × String))
    (hload : load_encrypted_store env file = .ok m) :
    set_encrypted_file env file k v salt nonce =
      .ok (save_encrypted_store env salt nonce (mapInsert k v m)) ∧
    get_encrypted_file env (save_encrypted_store env salt nonce (mapInsert k v m)) k =
      .ok (some v) ∧
    delete_encrypted_file env (save_encrypted_store env salt nonce (mapInsert k v m))
        k salt2 nonce2 =
      .ok (save_encrypted_store env salt2 nonce2 (mapRemove k (mapInsert k v m))) ∧
    get_encrypted_file env
        (save_encrypted_store env salt2 nonce2 (mapRemove k (mapInsert k v m))) k =
      .ok none := by
  refine ⟨?_, ?_, ?_, ?_⟩
  · simp [set_encrypted_file, hload]
  · simp [get_encrypted_file, load_after_save, mapGet_insert_self]
  · simp [delete_encrypted_file, load_after_save]
  · simp [get_encrypted_file, load_after_save, mapGet_remove_self]

theorem vault_roundtrip_witness :
    load_encrypted_store none .absent = .ok [] ∧
    get_encrypted_file none
        (save_encrypted_store none "s1" [1] (mapInsert "k" "secret" [])) "k" =
      .ok (some "secret") ∧
    get_encrypted_file none
        (save_encrypted_store none "s2" [2]
          (mapRemove "k" (mapInsert "k" "secret" []))) "k" =
      .ok none :=
  ⟨rfl,
   (vault_roundtrip none .absent "k" "secret" "s1" [1] "s2" [2] [] rfl).2.1,
   (vault_roundtrip none .absent "k" "secret" "s1" [1] "s2" [2] [] rfl).2.2.2⟩

/-! ## Theorems: dispatch engine (claims C1, C4, C9) -/

theorem dispatch_trace (cfg : List (String × UploadConfig)) (env : DispatchEnv)
    (names : List String) :
    (dispatch cfg env names).2 = (dispatchGo cfg env names.enum none []).2 := by
  unfold dispatch
  rcases hgo : dispatchGo cfg env names.enum none [] with ⟨r, tr⟩
  rcases r with e | o
  · rfl
  · rcases o with _ | r0 <;> rfl

theorem dispatchGo_notFound (cfg : List (String × UploadConfig))
    (env : DispatchEnv) (i : Nat) (name : String) (rest : List (Nat × String))
    (acc : Option UploadResult) (tr : List DispatchEv)
    (hcfg : lookupCfg cfg name = none) :
    dispatchGo cfg env ((i, name) :: rest) acc tr =
      (.error (.notFound name), tr) := by
  simp only [dispatchGo, hcfg]

theorem dispatchGo_unknownType (cfg : List (String × UploadConfig))
    (env : DispatchEnv) (i : Nat) (name : String) (rest : List (Nat × String))
    (acc : Option UploadResult) (tr : List DispatchEv) (d : UploadConfig)
    (hcfg : lookupCfg cfg name = some d) (hen : d.enabled = true)
    (hk : knownUploaderType d.uploader_type = false) :
    dispatchGo cfg env ((i, name) :: rest) acc tr =
      (.error (.unknownType d.uploader_type), tr) := by
  simp only [dispatchGo, hcfg, hen, hk]
  simp

theorem dispatchGo_validate_err (cfg : List (String × UploadConfig))
    (env : DispatchEnv) (i : Nat) (name : String) (rest : List (Nat × String))
    (acc : Option UploadResult) (tr : List DispatchEv) (d : UploadConfig)
    (e : String) (hcfg : lookupCfg cfg name = some d) (hen : d.enabled = true)
    (hk : knownUploaderType d.uploader_type = true)
    (hv : env.validateRes name = .error e) :
    dispatchGo cfg env ((i, name) :: rest) acc tr =
      (.error (.validateFailed name e), tr ++ [.constructed name]) := by
  simp only [dispatchGo, hcfg, hen, hk, hv]
  simp

theorem dispatchGo_upload_ok (cfg : List (String × UploadConfig))
    (env : DispatchEnv) (i : Nat) (name : String) (rest : List (Nat × String))
    (acc : Option UploadResult) (tr : List DispatchEv) (d : UploadConfig)
    (r : UploadResult) (hcfg : lookupCfg cfg name = some d)
    (hen : d.enabled = true) (hk : knownUploaderType d.uploader_type = true)
    (hv : env.validateRes name = .ok ()) (hu : env.uploadRes name = .ok r) :
    dispatchGo cfg env ((i, name) :: rest) acc tr =
      dispatchGo cfg env rest (if acc.isNone then some r else acc)
        (tr ++ [.constructed name, .uploaded name]) := by
  simp only [dispatchGo, hcfg, hen, hk, hv, hu]
  simp [List.append_assoc]

theorem dispatchGo_upload_err (cfg : List (String × UploadConfig))
    (env : DispatchEnv) (i : Nat) (name : String) (rest : List (Nat × String))
    (acc : Option UploadResult) (tr : List DispatchEv) (d : UploadConfig)
    (e : String) (hcfg : lookupCfg cfg name = some d) (hen : d.enabled = true)
    (hk : knownUploaderType d.uploader_type = true)
    (hv : env.validateRes name = .ok ()) (hu : env.uploadRes name = .error e) :
    dispatchGo cfg env ((i, name) :: rest) acc tr =
      if i = 0 then
        (.error (.uploadFailed name e),
         tr ++ [.constructed name, .uploaded name])
      else
        dispatchGo cfg env rest acc
          (tr ++ [.constructed name, .uploaded name]) := by
  simp only [dispatchGo, hcfg, hen, hk, hv, hu]
  simp [List.append_assoc]

theorem dispatchGo_skip (cfg : List (String × UploadConfig)) (env : DispatchEnv)
    (i : Nat) (name : String) (rest : List (Nat × String))
    (acc : Option UploadResult) (tr : List DispatchEv) (d : UploadConfig)
    (hcfg : lookupCfg cfg name = some d) (hdis : d.enabled = false) :
    dispatchGo cfg env ((i, name) :: rest) acc tr = dispatchGo cfg env rest acc tr := by
  simp only [dispatchGo, hcfg]
  rw [if_pos hdis]

theorem dispatchGo_all_disabled (cfg : List (String × UploadConfig))
    (env : DispatchEnv) :
    ∀ (l : List (Nat × String)) (acc : Option UploadResult) (tr : List DispatchEv),
      (∀ pr ∈ l, ∃ d, lookupCfg cfg pr.2 = some d ∧ d.enabled = false) →
      dispatchGo cfg env l acc tr = (.ok acc, tr) := by
  intro l
  induction l with
  | nil => intro acc tr _; rfl
  | cons hd rest ih =>
    obtain ⟨i, name⟩ := hd
    intro acc tr hall
    obtain ⟨d, hcfg, hdis⟩ := hall (i, name) (List.mem_cons_self _ _)
    rw [dispatchGo_skip cfg env i name rest acc tr d hcfg hdis]
    exact ih acc tr (fun pr hpr => hall pr (List.mem_cons_of_mem _ hpr))

theorem dispatchGo_trace_mem (cfg : List (String × UploadConfig))
    (env : DispatchEnv) :
    ∀ (l : List (Nat × String)) (acc : Option UploadResult) (tr : List DispatchEv)
      (ev : DispatchEv), ev ∈ (dispatchGo cfg env l acc tr).2 →
      ev ∈ tr ∨ evName ev ∈ l.map Prod.snd := by
  intro l
  induction l with
  | nil => intro acc tr ev h; exact Or.inl h
  | cons hd rest ih =>
    obtain ⟨i, name⟩ := hd
    intro acc tr ev h
    have hright : evName ev ∈ rest.map Prod.snd →
        evName ev ∈ ((i, name) :: rest).map Prod.snd := by
      intro hx
      simp only [List.map_cons]
      exact List.mem_cons_of_mem _ hx
    have hname : evName ev = name →
        evName ev ∈ ((i, name) :: rest).map Prod.snd := by
      intro hx
      simp only [List.map_cons, hx]
      exact List.mem_cons_self _ _
    have hsplit : ∀ {t : List DispatchEv},
        ev ∈ t ++ [DispatchEv.constructed name, DispatchEv.uploaded name] →
        ev ∈ t ∨ evName ev ∈ ((i, name) :: rest).map Prod.snd := by
      intro t hm
      rcases List.mem_append.mp hm with h1 | h2
      · exact Or.inl h1
      · right
        have hor : ev = DispatchEv.constructed name ∨
            ev = DispatchEv.uploaded name := by simpa using h2
        rcases hor with h3 | h3 <;> (subst h3; exact hname rfl)
    cases hcfg : lookupCfg cfg name with
    | none =>
      rw [dispatchGo_notFound cfg env i name rest acc tr hcfg] at h
      exact Or.inl h
    | some d =>
      by_cases hdis : d.enabled = false
      · rw [dispatchGo_skip cfg env i name rest acc tr d hcfg hdis] at h
        rcases ih acc tr ev h with h1 | h2
        · exact Or.inl h1
        · exact Or.inr (hright h2)
      · have hen : d.enabled = true := by
          cases hb : d.enabled with
          | false => exact absurd hb hdis
          | true => rfl
        by_cases hk : knownUploaderType d.uploader_type = false
        · rw [dispatchGo_unknownType cfg env i name rest acc tr d hcfg hen hk] at h
          exact Or.inl h
        · have hk2 : knownUploaderType d.uploader_type = true := by
            cases hb : knownUploaderType d.uploader_type with
            | false => exact absurd hb hk
            | true => rfl
          cases hv : env.validateRes name with
          | error e =>
            rw [dispatchGo_validate_err cfg env i name rest acc tr d e hcfg hen hk2 hv] at h
            rcases List.mem_append.mp h with h1 | h2
            · exact Or.inl h1
            · right
              have h3 : ev = DispatchEv.constructed name := by simpa using h2
              subst h3
              exact hname rfl
          | ok u =>
            cases u
            cases hu : env.uploadRes name with
            | ok r =>
              rw [dispatchGo_upload_ok cfg env i name rest acc tr d r hcfg hen hk2 hv hu] at h
              rcases ih _ _ ev h with h1 | h2
              · exact hsplit h1
              · exact Or.inr (hright h2)
            | error e =>
              rw [dispatchGo_upload_err cfg env i name rest acc tr d e hcfg hen hk2 hv hu] at h
              by_cases hi : i = 0
              · rw [if_pos hi] at h
                exact hsplit h
              · rw [if_neg hi] at h
                rcases ih _ _ ev h with h1 | h2
                · exact hsplit h1
                · exact Or.inr (hright h2)

/-- C1: an upload failure at the first (index 0) destination makes the
whole dispatch return that destination's error with no later
destination attempted (the trace holds only the first destination's
events); an upload failure at any index i > 0 does not fail the
dispatch, which simply continues with the remaining destinations. -/
theorem primary_fatal_secondary_besteffort :
    (∀ (cfg : List (String × UploadConfig)) (env : DispatchEnv) (name : String)
       (rest : List String) (d : UploadConfig) (e : String),
       lookupCfg cfg name = some d → d.enabled = true →
       knownUploaderType d.uploader_type = true →
       env.validateRes name = .ok () → env.uploadRes name = .error e →
       dispatch cfg env (name :: rest) =
         (.error (.uploadFailed name e),
          [.constructed name, .uploaded name])) ∧
    (∀ (cfg : List (String × UploadConfig)) (env : DispatchEnv) (i : Nat)
       (name : String) (rest : List (Nat × String)) (acc : Option UploadResult)
       (tr : List DispatchEv) (d : UploadConfig) (e : String),
       i ≠ 0 → lookupCfg cfg name = some d → d.enabled = true →
       knownUploaderType d.uploader_type = true →
       env.validateRes name = .ok () → env.uploadRes name = .error e →
       dispatchGo cfg env ((i, name) :: rest) acc tr =
         dispatchGo cfg env rest acc
           (tr ++ [.constructed name, .uploaded name])) := by
  constructor
  · intro cfg env name rest d e hcfg hen hk hv hu
    have hstep := dispatchGo_upload_err cfg env 0 name (rest.enumFrom 1) none [] d e
      hcfg hen hk hv hu
    rw [if_pos rfl] at hstep
    unfold dispatch
    rw [List.enum_cons, hstep]
    simp
  · intro cfg env i name rest acc tr d e hi hcfg hen hk hv hu
    have hstep := dispatchGo_upload_err cfg env i name rest acc tr d e
      hcfg hen hk hv hu
    rwa [if_neg hi] at hstep

theorem primary_fatal_secondary_besteffort_witness :
    (lookupCfg exampleUploads2 "a" = some exampleCfgA2 ∧
     exampleEnv2.uploadRes "a" = .error "boom" ∧
     dispatch exampleUploads2 exampleEnv2 ["a", "b"] =
       (.error (.uploadFailed "a" "boom"),
        [.constructed "a", .uploaded "a"])) ∧
    dispatchGo exampleUploads2 exampleEnv2 [(1, "a")] none [] =
      dispatchGo exampleUploads2 exampleEnv2 [] none
        [.constructed "a", .uploaded "a"] :=
  ⟨⟨rfl, rfl,
    primary_fatal_secondary_besteffort.1 exampleUploads2 exampleEnv2 "a" ["b"]
      exampleCfgA2 "boom" rfl rfl rfl rfl rfl⟩,
   by
     have h := primary_fatal_secondary_besteffort.2 exampleUploads2 exampleEnv2 1 "a"
       [] none [] exampleCfgA2 "boom" (by decide) rfl rfl rfl rfl rfl
     simpa using h⟩

/-- C4 counterexample: with primary "a" disabled and secondary "b"
enabled, dispatch does not fail at all (so in particular it does not
return a destination-disabled error — no such error variant even
exists) and an uploader IS constructed and invoked, for "b". -/
theorem disabled_primary_counterexample :
    dispatch exampleUploads exampleEnv ["a", "b"] =
      (.ok exampleResultB, [.constructed "b", .uploaded "b"]) ∧
    lookupCfg exampleUploads "a" = some exampleCfgA ∧
    exampleCfgA.enabled = false :=
  ⟨rfl, rfl, rfl⟩

/-- C4 (amended): a disabled primary is skipped with a warning — no
uploader is constructed or invoked for it — and dispatch continues with
the remaining destinations; only when every destination in the list is
disabled does dispatch fail, with a no-successful-uploads error and no
uploader constructed at all. -/
theorem disabled_primary_amended :
    (∀ (cfg : List (String × UploadConfig)) (env : DispatchEnv) (name : String)
       (rest : List String) (d : UploadConfig),
       lookupCfg cfg name = some d → d.enabled = false → name ∉ rest →
       DispatchEv.constructed name ∉ (dispatch cfg env (name :: rest)).2 ∧
       DispatchEv.uploaded name ∉ (dispatch cfg env (name :: rest)).2) ∧
    (∀ (cfg : List (String × UploadConfig)) (env : DispatchEnv)
       (names : List String),
       (∀ n ∈ names, ∃ d, lookupCfg cfg n = some d ∧ d.enabled = false) →
       dispatch cfg env names = (.error .noSuccessfulUploads, [])) := by
  constructor
  · intro cfg env name rest d hcfg hdis hnm
    have htr : (dispatch cfg env (name :: rest)).2 =
        (dispatchGo cfg env (rest.enumFrom 1) none []).2 := by
      rw [dispatch_trace, List.enum_cons,
        dispatchGo_skip cfg env 0 name _ none [] d hcfg hdis]
    have habs : ∀ ev : DispatchEv, evName ev = name →
        ev ∉ (dispatch cfg env (name :: rest)).2 := by
      intro ev hev hmem
      rw [htr] at hmem
      rcases dispatchGo_trace_mem cfg env _ none [] _ hmem with h | h
      · exact absurd h (List.not_mem_nil _)
      · rw [List.enumFrom_map_snd, hev] at h
        exact hnm h
    exact ⟨habs _ rfl, habs _ rfl⟩
  · intro cfg env names hall
    have hgo : dispatchGo cfg env names.enum none [] = (.ok none, []) := by
      apply dispatchGo_all_disabled
      intro pr hpr
      apply hall
      have hmem : pr.2 ∈ names.enum.map Prod.snd := List.mem_map_of_mem _ hpr
      rwa [List.enum_map_snd] at hmem
    unfold dispatch
    rw [hgo]

theorem disabled_primary_amended_witness :
    (lookupCfg exampleUploads "a" = some exampleCfgA ∧
     exampleCfgA.enabled = false ∧ "a" ∉ ["b"] ∧
     DispatchEv.constructed "a" ∉ (dispatch exampleUploads exampleEnv ["a", "b"]).2) ∧
    dispatch exampleUploadsAllDisabled exampleEnv ["a"] =
      (.error .noSuccessfulUploads, []) :=
  ⟨⟨rfl, rfl, by decide,
    (disabled_primary_amended.1 exampleUploads exampleEnv "a" ["b"] exampleCfgA
      rfl rfl (by decide)).1⟩,
   disabled_primary_amended.2 exampleUploadsAllDisabled exampleEnv ["a"]
     (by
       intro n hn
       have : n = "a" := by simpa using hn
       subst this
       exact ⟨exampleCfgA, rfl, rfl⟩)⟩

/-- C9: the history row written after a successful dispatch always has
`destination` equal to the primary (first) destination's name, even
when the recorded result was produced by a later destination;
concretely, with primary "a" disabled and "b" succeeding, dispatch
returns "b"'s result (its URL) while the row records destination
"a". -/
theorem history_destination_is_primary :
    (∀ (cfg : List (String × UploadConfig)) (env : DispatchEnv)
       (primary : String) (hasDest : Bool) (additional : List String)
       (fn now : String) (r : UploadResult) (tr : List DispatchEv),
       dispatch cfg env (buildUploaderNames primary hasDest additional) =
         (.ok r, tr) →
       (historyEntryOf primary fn r now).destination = primary) ∧
    (buildUploaderNames "a" false ["b"] = ["a", "b"] ∧
     (dispatch exampleUploads exampleEnv ["a", "b"]).1 = .ok exampleResultB ∧
     exampleResultB.url = some "https://b.example/x.png" ∧
     (historyEntryOf "a" "x.png" exampleResultB "t").destination = "a") := by
  refine ⟨?_, by decide, rfl, rfl, rfl⟩
  intro cfg env primary hasDest additional fn now r tr _
  rfl

theorem history_destination_is_primary_witness :
    dispatch exampleUploads exampleEnv (buildUploaderNames "a" false ["b"]) =
      (.ok exampleResultB, [.constructed "b", .uploaded "b"]) ∧
    (historyEntryOf "a" "x.png" exampleResultB "t").destination = "a" :=
  ⟨rfl, history_destination_is_primary.1 exampleUploads exampleEnv "a" false
    ["b"] "x.png" "t" exampleResultB [.constructed "b", .uploaded "b"] rfl⟩

/-! ## Theorems: history retention (claims C2, C8) -/

theorem sortNewestFirst_perm (l : List HistoryRow) :
    List.Perm (sortNewestFirst l) l :=
  List.perm_insertionSort _ l

theorem keep_length_le (rows : List HistoryRow) (m : Nat) :
    (rows.filter
      (keepRow (((sortNewestFirst rows).drop m).map HistoryRow.id))).length ≤ m := by
  set delIds := ((sortNewestFirst rows).drop m).map HistoryRow.id with hdel
  have hperm : List.Perm (rows.filter (keepRow delIds))
      ((sortNewestFirst rows).filter (keepRow delIds)) :=
    ((sortNewestFirst_perm rows).filter _).symm
  have hsplit : sortNewestFirst rows =
      (sortNewestFirst rows).take m ++ (sortNewestFirst rows).drop m :=
    (List.take_append_drop _ _).symm
  have hdropnil : ((sortNewestFirst rows).drop m).filter (keepRow delIds) = [] := by
    rw [List.filter_eq_nil_iff]
    intro a ha
    have hmem : a.id ∈ delIds := by
      rw [hdel]
      exact List.mem_map_of_mem _ ha
    simp [keepRow, hmem]
  calc (rows.filter (keepRow delIds)).length
      = ((sortNewestFirst rows).filter (keepRow delIds)).length := hperm.length_eq
    _ = (((sortNewestFirst rows).take m).filter (keepRow delIds) ++
          ((sortNewestFirst rows).drop m).filter (keepRow delIds)).length := by
        rw [← List.filter_append, ← hsplit]
    _ = (((sortNewestFirst rows).take m).filter (keepRow delIds)).length := by
        rw [hdropnil, List.append_nil]
    _ ≤ ((sortNewestFirst rows).take m).length := List.length_filter_le _ _
    _ ≤ m := by
        rw [List.length_take]
        exact Nat.min_le_left _ _

theorem cleanup_max0 (cfg : HistoryConfig) (st : HistState)
    (h : cfg.max_entries = 0) : cleanup cfg st = (0, st, []) := by
  simp [cleanup, h]

theorem cleanup_pos (cfg : HistoryConfig) (st : HistState)
    (h : cfg.max_entries ≠ 0) :
    cleanup cfg st =
      (((sortNewestFirst st.rows).drop cfg.max_entries).length,
       { st with rows := st.rows.filter (keepRow (((sortNewestFirst st.rows).drop cfg.max_entries).map HistoryRow.id)) },
       evictionEvents ((sortNewestFirst st.rows).drop cfg.max_entries)) := by
  simp only [cleanup, if_neg h]

theorem cleanup_rows_length_le (cfg : HistoryConfig) (st : HistState)
    (h : cfg.max_entries ≠ 0) :
    ((cleanup cfg st).2.1).rows.length ≤ cfg.max_entries := by
  rw [cleanup_pos cfg st h]
  exact keep_length_le st.rows cfg.max_entries

theorem evictionEvents_append (x y : List HistoryRow) :
    evictionEvents (x ++ y) = evictionEvents x ++ evictionEvents y := by
  induction x with
  | nil => rfl
  | cons r rest ih => simp [evictionEvents, ih, List.append_assoc]

theorem evictionEvents_before (l : List HistoryRow) (r : HistoryRow)
    (hr : r ∈ l) (p : String) (hp : p ∈ rowFiles r) :
    evBefore (evictionEvents l) (.rmFile p) (.delRow r.id) := by
  obtain ⟨u, v, rfl⟩ := List.append_of_mem hr
  obtain ⟨f1, f2, hf⟩ := List.append_of_mem hp
  refine ⟨evictionEvents u ++ f1.map HistEv.rmFile, f2.map HistEv.rmFile,
    evictionEvents v, ?_⟩
  rw [evictionEvents_append]
  show evictionEvents u ++ evictionEvents (r :: v) = _
  simp [evictionEvents, hf, List.append_assoc]

theorem add_ok_state (cfg : HistoryConfig) (st : HistState)
    (entry : HistoryRow) (img : Option ImageData) (i : Nat) (st2 : HistState)
    (evs2 : List HistEv) (hen : cfg.enabled = true)
    (hadd : add cfg st entry img = .ok (i, st2, evs2)) :
    ∃ st1 : HistState, st2 = (cleanup cfg st1).2.1 := by
  unfold add at hadd
  rw [if_neg (by simp [hen])] at hadd
  cases hf : addFiles cfg.mode img entry.filename with
  | error e =>
    rw [hf] at hadd
    simp at hadd
  | ok pr =>
    obtain ⟨thumb, localCopy⟩ := pr
    rw [hf] at hadd
    simp only [Except.ok.injEq, Prod.mk.injEq] at hadd
    exact ⟨_, hadd.2.1.symm⟩

/-- C2: after every cleanup — and after every completed add with
history enabled, since `add` runs `cleanup` last — the store holds at
most `max_entries` rows (for `max_entries > 0`; 0 means unbounded);
the surviving rows all come from the newest `max_entries` rows under
the `created_at DESC` ordering, so eviction removes exactly the rows
beyond them (the oldest ones, whose count is the first component), and
each evicted row's thumbnail/local-copy files are removed before its
row is deleted. -/
theorem retention_invariant (cfg : HistoryConfig) (st : HistState)
    (hmax : 0 < cfg.max_entries) :
    (((cleanup cfg st).2.1).rows.length ≤ cfg.max_entries ∧
     (∀ r ∈ ((cleanup cfg st).2.1).rows,
        r ∈ (sortNewestFirst st.rows).take cfg.max_entries) ∧
     (∀ r ∈ (sortNewestFirst st.rows).drop cfg.max_entries,
        ∀ p ∈ rowFiles r,
          evBefore ((cleanup cfg st).2.2) (.rmFile p) (.delRow r.id)) ∧
     (cleanup cfg st).1 =
       ((sortNewestFirst st.rows).drop cfg.max_entries).length) ∧
    (∀ (entry : HistoryRow) (img : Option ImageData) (i : Nat)
       (st2 : HistState) (evs2 : List HistEv),
       cfg.enabled = true → add cfg st entry img = .ok (i, st2, evs2) →
       st2.rows.length ≤ cfg.max_entries) := by
  have hne : cfg.max_entries ≠ 0 := Nat.pos_iff_ne_zero.mp hmax
  constructor
  · refine ⟨cleanup_rows_length_le cfg st hne, ?_, ?_, ?_⟩
    · intro r hr
      rw [cleanup_pos cfg st hne] at hr
      obtain ⟨hmem, hkeep⟩ := List.mem_filter.mp hr
      have hsorted : r ∈ sortNewestFirst st.rows :=
        (sortNewestFirst_perm st.rows).mem_iff.mpr hmem
      rw [← List.take_append_drop cfg.max_entries (sortNewestFirst st.rows)]
        at hsorted
      rcases List.mem_append.mp hsorted with h1 | h2
      · exact h1
      · exfalso
        have hid : r.id ∈ ((sortNewestFirst st.rows).drop cfg.max_entries).map
            HistoryRow.id := List.mem_map_of_mem _ h2
        simp [keepRow] at hkeep
        exact hkeep (by simpa using hid)
    · intro r hr p hp
      rw [cleanup_pos cfg st hne]
      exact evictionEvents_before _ r hr p hp
    · rw [cleanup_pos cfg st hne]
  · intro entry img i st2 evs2 hen hadd
    obtain ⟨st1, hst2⟩ := add_ok_state cfg st entry img i st2 evs2 hen hadd
    rw [hst2]
    exact cleanup_rows_length_le cfg st1 hne

theorem retention_invariant_witness :
    0 < cfgMax1.max_entries ∧
    ((cleanup cfgMax1 stTwo).2.1).rows.length ≤ cfgMax1.max_entries ∧
    evBefore ((cleanup cfgMax1 stTwo).2.2)
      (.rmFile "thumbnails/thumb_old.png") (.delRow 1) :=
  ⟨by decide,
   (retention_invariant cfgMax1 stTwo (by decide)).1.1,
   (retention_invariant cfgMax1 stTwo (by decide)).1.2.2.1 rowOld (by decide)
     "thumbnails/thumb_old.png" (by decide)⟩

/-- C8: calling `cleanup` twice in succession with no intervening add
yields a removal count of 0 from the second call, for every store
state and configuration. -/
theorem cleanup_idempotent (cfg : HistoryConfig) (st : HistState) :
    (cleanup cfg ((cleanup cfg st).2.1)).1 = 0 := by
  by_cases h : cfg.max_entries = 0
  · rw [cleanup_max0 cfg _ h]
  · have hlen : ((cleanup cfg st).2.1).rows.length ≤ cfg.max_entries :=
      cleanup_rows_length_le cfg st h
    have hslen : (sortNewestFirst ((cleanup cfg st).2.1).rows).length =
        ((cleanup cfg st).2.1).rows.length :=
      (sortNewestFirst_perm _).length_eq
    rw [cleanup_pos cfg _ h]
    simp only [List.length_drop]
    omega

/-! ## Theorems: timestamp fallback (claim C10) -/

/-- C10: `get_recent`, `search` and `get_by_id` never fail because a
row's `created_at` text is not valid RFC3339: for every behaviour of
the external RFC3339 parser the queries return `Ok`, and a row whose
text does not parse gets the current time (`now`) in the returned
entry instead of producing an error. -/
theorem unparsable_timestamp_fallback (parse : String → Option Int)
    (now : Int) (st : HistState) (limit : Nat) (q : String) (i : Nat) :
    (get_recent parse now st limit).isOk = true ∧
    (search parse now st q).isOk = true ∧
    (get_by_id parse now st i).isOk = true ∧
    ∀ r ∈ st.rows, parse r.created_at = none →
      (rowToEntry parse now r).created_at = now := by
  refine ⟨rfl, rfl, rfl, ?_⟩
  intro r _ hp
  simp [rowToEntry, hp]

theorem unparsable_timestamp_fallback_witness :
    (get_recent parseNone 0 stShot 10).isOk = true ∧
    rowShot ∈ stShot.rows ∧ parseNone rowShot.created_at = none ∧
    (rowToEntry parseNone 0 rowShot).created_at = 0 :=
  ⟨(unparsable_timestamp_fallback parseNone 0 stShot 10 "" 0).1,
   by decide, rfl,
   (unparsable_timestamp_fallback parseNone 0 stShot 10 "" 0).2.2.2 rowShot
     (by decide) rfl⟩

/-! ## Theorems: search semantics (claim C7) -/

theorem likeFuel_pct (s : List Char) :
    ∀ n : Nat, s.length + 1 < n → likeFuel n ['%'] s = true := by
  induction s with
  | nil =>
    intro n h
    match n, h with
    | m + 1, h =>
      have hm : m ≠ 0 := by simp at h; omega
      match m, hm with
      | k + 1, _ => rfl
  | cons c s2 ih =>
    intro n h
    match n, h with
    | m + 1, h =>
      have h2 : s2.length + 1 < m := by simp at h; omega
      simp [likeFuel, ih m h2]

theorem likeFuel_lit_pct :
    ∀ (q : List Char), (∀ c ∈ q, c ≠ '%' ∧ c ≠ '_') →
    ∀ (s : List Char) (n : Nat), q.length + 1 + s.length < n →
    likeFuel n (q ++ ['%']) s = prefCI q s := by
  intro q
  induction q with
  | nil =>
    intro _ s n h
    simp only [List.nil_append]
    rw [likeFuel_pct s n (by simp at h; omega)]
    rfl
  | cons a as ih =>
    intro hq s n h
    have ha := hq a (List.mem_cons_self _ _)
    have has : ∀ c ∈ as, c ≠ '%' ∧ c ≠ '_' :=
      fun c hc => hq c (List.mem_cons_of_mem _ hc)
    match n, h with
    | m + 1, h =>
      cases s with
      | nil => simp [likeFuel, ha.1, prefCI]
      | cons b s2 =>
        have h2 : as.length + 1 + s2.length < m := by simp at h; omega
        simp [likeFuel, ha.1, ha.2, prefCI, ih has s2 m h2]

theorem likeFuel_pct_sub :
    ∀ (s q : List Char), (∀ c ∈ q, c ≠ '%' ∧ c ≠ '_') →
    ∀ n : Nat, q.length + 2 + s.length < n →
    likeFuel n ('%' :: (q ++ ['%'])) s = subCI q s := by
  intro s
  induction s with
  | nil =>
    intro q hq n h
    match n, h with
    | m + 1, h =>
      simp only [likeFuel, if_pos rfl]
      rw [likeFuel_lit_pct q hq [] m (by simp at h; simp; omega)]
      simp [subCI]
  | cons c s2 ih =>
    intro q hq n h
    match n, h with
    | m + 1, h =>
      simp only [likeFuel, if_pos rfl]
      rw [likeFuel_lit_pct q hq (c :: s2) m (by simp at h; simp; omega),
        ih q hq m (by simp at h; omega)]
      simp [subCI]

theorem likeMatch_subCI (q s : List Char)
    (hq : ∀ c ∈ q, c ≠ '%' ∧ c ≠ '_') :
    likeMatch ('%' :: (q ++ ['%'])) s = subCI q s := by
  unfold likeMatch
  apply likeFuel_pct_sub s q hq
  simp

/-- C7 (amended): for every query free of the SQL LIKE wildcard
characters '%' and '_', `search` returns exactly the stored entries
whose filename or URL contains the query as a case-INSENSITIVE (ASCII)
substring, ordered newest first, capped at 100 results — SQLite's
default LIKE comparison is ASCII-case-insensitive, so the match is not
the case-sensitive one the claim states. -/
theorem search_case_insensitive (parse : String → Option Int) (now : Int)
    (st : HistState) (q : String)
    (hq : ∀ c ∈ q.data, c ≠ '%' ∧ c ≠ '_') :
    search parse now st q = searchSpecCI parse now st q := by
  have hfilter : (sortNewestFirst st.rows).filter (rowMatchesSearch q) =
      (sortNewestFirst st.rows).filter (fun r =>
        subCI q.data r.filename.data ||
          (match r.url with
           | some u => subCI q.data u.data
           | none => false)) := by
    apply List.filter_congr
    intro r _
    show rowMatchesSearch q r = _
    unfold rowMatchesSearch
    rw [likeMatch_subCI q.data r.filename.data hq]
    rcases hu : r.url with _ | u
    · simp [hu]
    · simp [hu, likeMatch_subCI q.data u.data hq]
  unfold search searchSpecCI
  rw [hfilter]

theorem search_case_insensitive_witness :
    (∀ c ∈ "shot".data, c ≠ '%' ∧ c ≠ '_') ∧
    search parseNone 0 stShot "shot" = searchSpecCI parseNone 0 stShot "shot" ∧
    search parseNone 0 stShot "shot" = .ok [rowToEntry parseNone 0 rowShot] :=
  ⟨by decide,
   search_case_insensitive parseNone 0 stShot "shot" (by decide),
   rfl⟩

/-- C7 counterexample: the stored row with filename "Shot.png" IS
returned by `search` for the query "shot" (SQLite LIKE compares ASCII
letters case-insensitively), while the case-sensitive substring search
the claim describes returns nothing — so `search` does not implement
case-sensitive substring matching. -/
theorem search_case_sensitivity_counterexample :
    search parseNone 0 stShot "shot" = .ok [rowToEntry parseNone 0 rowShot] ∧
    searchSpecCS parseNone 0 stShot "shot" = .ok [] ∧
    search parseNone 0 stShot "shot" ≠ searchSpecCS parseNone 0 stShot "shot" := by
  refine ⟨rfl, rfl, ?_⟩
  intro h
  rw [show search parseNone 0 stShot "shot" =
        .ok [rowToEntry parseNone 0 rowShot] from rfl,
      show searchSpecCS parseNone 0 stShot "shot" = .ok [] from rfl] at h
  exact absurd h (by simp)

/-! ## Theorems: authentication precedence (claim C6) -/

/-- C6 counterexample: an SFTP destination with key auth not
configured and no stored password, against a server where agent
authentication would succeed.  The claimed precedence performs an
agent attempt and succeeds; `SftpUploader::authenticate` attempts no
method at all and fails with an authentication error — the SFTP
variant never consults the ssh-agent. -/
theorem auth_agent_counterexample :
    sftp_authenticate c6cfg none c6env = ([], .authError "password required") ∧
    claimedAuthSequence c6cfg none c6env = ([.agent], .ok) ∧
    sftp_authenticate c6cfg none c6env ≠ claimedAuthSequence c6cfg none c6env := by
  refine ⟨rfl, rfl, ?_⟩
  intro h
  rw [show sftp_authenticate c6cfg none c6env =
        ([], .authError "password required") from rfl,
      show claimedAuthSequence c6cfg none c6env = ([.agent], .ok) from rfl] at h
  exact absurd h (by simp)

/-- C6 (amended): the two variants differ and neither matches the
claimed precedence in full.  (i) The SFTP variant never attempts agent
authentication.  (ii) Without key auth, the SFTP variant requires a
stored password (authentication error when absent, no attempt made),
while the SSH variant uses the password when present and tries the
agent only when no password exists.  (iii) When key auth is configured
and the key attempt fails, both variants fall back to password
authentication only if a password is present, and otherwise fail with
an authentication error without trying the agent. -/
theorem auth_precedence_amended :
    (∀ (c : UploadConfig) (pw : Option String) (env : AuthEnv),
       AuthMethod.agent ∉ (sftp_authenticate c pw env).1) ∧
    (∀ (c : UploadConfig) (pw : Option String) (env : AuthEnv) (u : String),
       c.username = some u → c.use_key_auth.getD false = false →
       (sftp_authenticate c pw env = authenticate_password pw env ∧
        (pw = none →
          sftp_authenticate c pw env = ([], .authError "password required")) ∧
        (pw = none → ssh_authenticate c pw env =
          ([.agent], if env.agentAuthOk then .ok else .authError "agent auth failed")) ∧
        (∀ p, pw = some p → ssh_authenticate c pw env =
          ([.password],
           if env.passwordAuthOk then .ok else .authError "password auth failed")))) ∧
    (∀ (c : UploadConfig) (pw : Option String) (env : AuthEnv) (u kp : String),
       c.username = some u → c.use_key_auth.getD false = true →
       c.key_path = some kp → env.keyAuthOk = false →
       ((pw = none →
          sftp_authenticate c pw env = ([.publicKey], .authError "key auth failed") ∧
          ssh_authenticate c pw env = ([.publicKey], .authError "key auth failed")) ∧
        (∀ p, pw = some p →
          (sftp_authenticate c pw env).1 = [.publicKey, .password] ∧
          (ssh_authenticate c pw env).1 = [.publicKey, .password]))) := by
  refine ⟨?_, ?_, ?_⟩
  · intro c pw env
    unfold sftp_authenticate authenticate_password
    cases c.username with
    | none => simp
    | some u =>
      by_cases hk : c.use_key_auth.getD false = true
      · simp only [hk, if_true]
        cases c.key_path with
        | none => simp
        | some kp =>
          by_cases hko : env.keyAuthOk = true
          · simp [hko]
          · simp only [Bool.not_eq_true] at hko
            simp only [hko, Bool.false_eq_true, if_false]
            cases pw with
            | none => simp
            | some p => simp
      · simp only [Bool.not_eq_true] at hk
        simp only [hk, Bool.false_eq_true, if_false]
        cases pw with
        | none => simp
        | some p => simp
  · intro c pw env u hu hk
    refine ⟨?_, ?_, ?_, ?_⟩
    · unfold sftp_authenticate
      simp [hu, hk]
    · intro hpw
      subst hpw
      unfold sftp_authenticate authenticate_password
      simp [hu, hk]
    · intro hpw
      subst hpw
      unfold ssh_authenticate
      simp [hu, hk]
    · intro p hpw
      subst hpw
      unfold ssh_authenticate
      simp [hu, hk]
  · intro c pw env u kp hu hk hkp hko
    constructor
    · intro hpw
      subst hpw
      constructor
      · unfold sftp_authenticate
        simp [hu, hk, hkp, hko]
      · unfold ssh_authenticate
        simp [hu, hk, hkp, hko]
    · intro p hpw
      subst hpw
      constructor
      · unfold sftp_authenticate authenticate_password
        simp [hu, hk, hkp, hko]
      · unfold ssh_authenticate authenticate_password
        simp [hu, hk, hkp, hko]

theorem auth_precedence_amended_witness :
    AuthMethod.agent ∉ (sftp_authenticate c6cfg none c6env).1 ∧
    c6cfg.username = some "u" ∧ c6cfg.use_key_auth.getD false = false ∧
    sftp_authenticate c6cfg none c6env = ([], .authError "password required") ∧
    ssh_authenticate c6cfg none c6env =
      ([.agent], if c6env.agentAuthOk then .ok else .authError "agent auth failed") :=
  ⟨auth_precedence_amended.1 c6cfg none c6env, rfl, rfl,
   (auth_precedence_amended.2.1 c6cfg none c6env "u" rfl rfl).2.1 rfl,
   (auth_precedence_amended.2.1 c6cfg none c6env "u" rfl rfl).2.2.1 rfl⟩

end Snapto
